import Mathlib

/-
Verification development for the insurance-policy RAG pipeline
(`insurance_rag_system.py` and `insurance_rag_simple.py`, whose chunking,
classification, feature-extraction, scoring and retrieval-formatting code is
line-for-line identical up to the extra table-extraction methods and three
extra vocabulary terms of the full variant).

Modelling conventions:
- Python strings are Lean `String`s; `len(s.split())` (whitespace word count)
  is `wordCount`; `' '.join` is `joinSp`; `s.lower()` is `toLowerStr`.
- Python floats are modelled as rationals (the code only forms sums,
  products by 0.1, divisions and `min` with 1.0).
- The external spaCy sentence tokenizer (`_split_into_sentences`) is a
  parameter `splitSentences : String -> List String`.
- The external PDF extraction, embedding model, clock and vector store are
  inputs: extracted lines/tables, the store's query reply, and the
  per-document pipeline body are passed in as data / functions.
-/

/-- Python `len(text.split())` word counting over a character list: counts the
maximal runs of non-whitespace characters; `inWord` records whether the
previous character belonged to a run. -/
def wcAux : Bool → List Char → Nat
  | _, [] => 0
  | inWord, c :: cs =>
    if c.isWhitespace then wcAux false cs
    else (if inWord then 0 else 1) + wcAux true cs

/-- `len(s.split())` for a string. -/
def wordCount (s : String) : Nat := wcAux false s.data

/-- Python `' '.join(xs)`. -/
def joinSp : List String → String
  | [] => ""
  | [x] => x
  | x :: y :: xs => x ++ " " ++ joinSp (y :: xs)

/-- Python `s.lower()` (ASCII case folding, which is all the keyword lists
use). -/
def toLowerStr (s : String) : String := String.mk (s.data.map Char.toLower)

/-- Python `s.split('.')` on a character list: splits at every `'.'`, keeping
empty pieces, so the result is always non-empty. -/
def splitDot : List Char → List (List Char)
  | [] => [[]]
  | c :: cs =>
    if c = '.' then [] :: splitDot cs
    else
      match splitDot cs with
      | [] => [[c]]
      | w :: ws => (c :: w) :: ws

/-- Count of maximal digit runs, i.e. `len(re.findall(r'\d+', text))`. -/
def digitRunsAux : Bool → List Char → Nat
  | _, [] => 0
  | inRun, c :: cs =>
    if c.isDigit then (if inRun then 0 else 1) + digitRunsAux true cs
    else digitRunsAux false cs

/-- `len(re.findall(r'\d+', text))` for a string. -/
def countDigitRuns (s : String) : Nat := digitRunsAux false s.data

/-- Whether the first list is an initial segment of the second. -/
def isPrefixL : List Char → List Char → Bool
  | [], _ => true
  | _ :: _, [] => false
  | a :: as, b :: bs => (a == b) && isPrefixL as bs

/-- Whether `sub` occurs as a contiguous sublist, i.e. Python `sub in s`. -/
def containsL (sub : List Char) : List Char → Bool
  | [] => isPrefixL sub []
  | c :: cs => isPrefixL sub (c :: cs) || containsL sub cs

/-- Python's substring test `sub in s`. -/
def strContains (s sub : String) : Bool := containsL sub.data s.data

/-- Python `s.count(sub)`: non-overlapping occurrences, scanning left to
right and resuming after each match. The fuel, initialised to the text
length, bounds the number of scan steps, each of which consumes at least
one character. -/
def countOccsAux (sub : List Char) : Nat → List Char → Nat
  | 0, _ => 0
  | _, [] => 0
  | fuel + 1, c :: cs =>
    if isPrefixL sub (c :: cs) then 1 + countOccsAux sub fuel (cs.drop (sub.length - 1))
    else countOccsAux sub fuel cs

/-- Python `s.count(sub)` for strings. -/
def countOccs (s sub : String) : Nat := countOccsAux sub.data s.data.length s.data

/-- `any(word in t for word in ws)`. -/
def anyKw (t : String) (ws : List String) : Bool := ws.any (fun w => strContains t w)

/-- `InsurancePolicyChunker._classify_section` (insurance_rag_system.py
187-206) = `SimpleInsuranceChunker._classify_section`
(insurance_rag_simple.py 124-143): a case-insensitive first-match keyword
cascade. -/
def classify_section (text : String) : String :=
  if anyKw (toLowerStr text) ["coverage", "cover", "insured"] then ("coverage")
  else if anyKw (toLowerStr text) ["exclusion", "excluded", "not covered"] then ("exclusion")
  else if anyKw (toLowerStr text) ["definition", "defined", "means"] then ("definition")
  else if anyKw (toLowerStr text) ["condition", "term", "provision"] then ("condition")
  else if anyKw (toLowerStr text) ["premium", "payment", "cost"] then ("premium")
  else if anyKw (toLowerStr text) ["claim", "claimant", "notification"] then ("claim")
  else if anyKw (toLowerStr text) ["schedule", "table", "summary"] then ("schedule")
  else ("general")

/-- The fixed ordered rule list of the spec's section 4.1: each rule is a
disjunction of substrings paired with the category it assigns. -/
def classifyRules : List (List String × String) :=
  [(["coverage", "cover", "insured"], "coverage"),
   (["exclusion", "excluded", "not covered"], "exclusion"),
   (["definition", "defined", "means"], "definition"),
   (["condition", "term", "provision"], "condition"),
   (["premium", "payment", "cost"], "premium"),
   (["claim", "claimant", "notification"], "claim"),
   (["schedule", "table", "summary"], "schedule")]

/-- First-match evaluation of an ordered rule list, with default category
`general` — the spec's description of category assignment. -/
def firstMatch (t : String) : List (List String × String) → String
  | [] => "general"
  | r :: rest => if anyKw t r.1 then r.2 else firstMatch t rest

/-- Spec-side classifier: the first matching rule of `classifyRules`, on the
lower-cased line, wins. -/
def classify_spec (text : String) : String := firstMatch (toLowerStr text) classifyRules

/-- Metadata of a chunk: the `'metadata'` dict of
`_create_chunk_metadata` for text chunks (the wall-clock timestamp, an
external clock read, is omitted), or page/table-index for table chunks. -/
inductive ChunkMeta where
  | text (section_type : String) (word_count : Nat) (char_count : Nat)
  | table (page : Nat) (table_index : Nat)
deriving DecidableEq

/-- A chunk dict: content, type tag and metadata. -/
structure Chunk where
  content : String
  type : String
  meta : ChunkMeta
deriving DecidableEq

/-- One entry of `extracted_data['text_content']`: the fields of the dicts
built in `extract_text_with_structure` that `create_semantic_chunks` reads
(page/line numbers are never read by the chunker and are omitted). -/
structure LineItem where
  text : String
  is_header : Bool
  section_type : String
deriving DecidableEq

/-- One entry of `extracted_data['tables']` (the fields read when building a
table chunk, simple variant). -/
structure TableData where
  text : String
  page : Nat
  table_index : Nat
deriving DecidableEq

/-- `InsurancePolicyChunker._create_chunk_metadata` (lines 266-278): joins
the accumulated strings with spaces and records section, word count and
character count. -/
def createChunkMetadata (text_list : List String) (section_type : String) : Chunk :=
  { content := joinSp text_list
    type := "text"
    meta := ChunkMeta.text section_type (wordCount (joinSp text_list)) (joinSp text_list).length }

/-- The sentence re-accumulation loop of `create_semantic_chunks`
(lines 236-243): sentences are appended to `temp_chunk` greedily; whenever
the joined word count exceeds `chunk_size`, `temp_chunk[:-1]` is emitted and
the loop restarts from the overflowing sentence. Returns the emitted chunks
and the final `temp_chunk`. -/
def overflowSplit (chunk_size : Nat) (section_type : String) :
    List String → List String → List Chunk × List String
  | [], temp => ([], temp)
  | s :: rest, temp =>
    if wordCount (joinSp (temp ++ [s])) > chunk_size then
      (createChunkMetadata ((temp ++ [s]).dropLast) section_type ::
          (overflowSplit chunk_size section_type rest [s]).1,
        (overflowSplit chunk_size section_type rest [s]).2)
    else
      overflowSplit chunk_size section_type rest (temp ++ [s])

/-- The header test and buffer append of one iteration of the
`for item in text_content` loop (lines 217-227): on a header with a new
section the non-empty buffer is flushed and a new buffer is seeded with the
header line; otherwise the line is appended. State is
(chunks so far, current_chunk, current_section). -/
def headerStep (st : List Chunk × List String × String) (item : LineItem) :
    List Chunk × List String × String :=
  if item.is_header && (item.section_type != st.2.2) then
    ((if st.2.1.isEmpty then st.1 else st.1 ++ [createChunkMetadata st.2.1 st.2.2]),
      [item.text], item.section_type)
  else
    (st.1, st.2.1 ++ [item.text], st.2.2)

/-- The size check of the same loop iteration (lines 229-244): when the
joined buffer exceeds `chunk_size` words it is re-tokenized into sentences
and re-packed by `overflowSplit`; the remainder becomes the new buffer. -/
def sizeCheck (chunk_size : Nat) (splitSentences : String → List String)
    (st : List Chunk × List String × String) : List Chunk × List String × String :=
  if wordCount (joinSp st.2.1) > chunk_size then
    (st.1 ++ (overflowSplit chunk_size st.2.2 (splitSentences (joinSp st.2.1)) []).1,
      (overflowSplit chunk_size st.2.2 (splitSentences (joinSp st.2.1)) []).2,
      st.2.2)
  else
    st

/-- One full iteration of the text-content loop of `create_semantic_chunks`:
header handling followed by the size check. -/
def chunkStep (chunk_size : Nat) (splitSentences : String → List String)
    (st : List Chunk × List String × String) (item : LineItem) :
    List Chunk × List String × String :=
  sizeCheck chunk_size splitSentences (headerStep st item)

/-- Lines 246-248: the remaining non-empty buffer becomes the final text
chunk. -/
def finishChunks (st : List Chunk × List String × String) : List Chunk :=
  if st.2.1.isEmpty then st.1 else st.1 ++ [createChunkMetadata st.2.1 st.2.2]

/-- Lines 250-262 (simple variant fields): each extracted table becomes its
own chunk of type `table`. -/
def tableChunk (t : TableData) : Chunk :=
  { content := t.text, type := "table", meta := ChunkMeta.table t.page t.table_index }

/-- `InsurancePolicyChunker.create_semantic_chunks` (lines 208-264) =
`SimpleInsuranceChunker.create_chunks` (lines 145-199): fold the loop body
over the lines starting from an empty buffer and section `general`, flush
the last buffer, then append one chunk per table. -/
def create_semantic_chunks (chunk_size : Nat) (splitSentences : String → List String)
    (text_content : List LineItem) (tables : List TableData) : List Chunk :=
  finishChunks (text_content.foldl (chunkStep chunk_size splitSentences) ([], [], "general")) ++
    tables.map tableChunk

/-- Size-bound predicate for a produced chunk: a text chunk either fits in
`chunk_size` words, or its content is a single sentence produced by the
sentence tokenizer whose own word count exceeds `chunk_size`. -/
def GoodChunk (chunk_size : Nat) (splitSentences : String → List String) (c : Chunk) : Prop :=
  c.type = "text" →
    wordCount c.content ≤ chunk_size ∨
      (chunk_size < wordCount c.content ∧ ∃ t, c.content ∈ splitSentences t)

/-- Invariant for the working buffer: it joins to at most `chunk_size`
words, or it is a single tokenizer-produced sentence that alone exceeds
`chunk_size`. -/
def GoodBuf (chunk_size : Nat) (splitSentences : String → List String) (buf : List String) : Prop :=
  wordCount (joinSp buf) ≤ chunk_size ∨
    ∃ s t, buf = [s] ∧ s ∈ splitSentences t ∧ chunk_size < wordCount s

/-- The `insurance_terms` vocabulary of `InsuranceEmbedder`
(insurance_rag_system.py 295-300). -/
def insurance_terms : List String :=
  ["premium", "deductible", "coverage", "exclusion", "claim",
   "policyholder", "beneficiary", "endorsement", "rider",
   "underwriting", "actuary", "indemnity", "subrogation",
   "grace period", "contestability", "incontestability"]

/-- The `insurance_terms` vocabulary of `SimpleInsuranceEmbedder`
(insurance_rag_simple.py 230-234). -/
def insurance_terms_simple : List String :=
  ["premium", "deductible", "coverage", "exclusion", "claim",
   "policyholder", "beneficiary", "endorsement", "rider",
   "underwriting", "actuary", "indemnity", "subrogation"]

/-- The legal-language markers tested by `_extract_features` (line 363). -/
def legal_terms4 : List String := ["shall", "must", "required", "obligation"]

/-- The legal-language markers tested by `_calculate_semantic_score`
(line 374). -/
def legal_words5 : List String := ["shall", "must", "required", "obligation", "liability"]

/-- The `'$'` amount pattern `\$[\d,]+(?:\.\d{2})?` matched at the start of
`l`; the character class run is taken greedily and, exactly as the regex
backtracking resolves, the cents suffix is taken when a dot and two digits
follow. Returns the match and the remainder. -/
def matchAmount (l : List Char) : Option (List Char × List Char) :=
  match l with
  | '$' :: rest =>
    let body := rest.takeWhile (fun c => c.isDigit || c == ',')
    let r2 := rest.dropWhile (fun c => c.isDigit || c == ',')
    if body.isEmpty then none
    else
      match r2 with
      | '.' :: d1 :: d2 :: r3 =>
        if d1.isDigit && d2.isDigit then some ('$' :: body ++ '.' :: d1 :: d2 :: [], r3)
        else some ('$' :: body, r2)
      | _ => some ('$' :: body, r2)
  | _ => none

/-- The percentage pattern `\d+(?:\.\d+)?%` matched at the start of `l`. -/
def matchPercent (l : List Char) : Option (List Char × List Char) :=
  let ds := l.takeWhile Char.isDigit
  let r1 := l.dropWhile Char.isDigit
  if ds.isEmpty then none
  else
    match r1 with
    | '%' :: r2 => some (ds ++ ['%'], r2)
    | '.' :: r2 =>
      let ds2 := r2.takeWhile Char.isDigit
      let r3 := r2.dropWhile Char.isDigit
      if ds2.isEmpty then none
      else
        match r3 with
        | '%' :: r4 => some (ds ++ '.' :: ds2 ++ ['%'], r4)
        | _ => none
    | _ => none

/-- The date pattern of `_extract_features`: one or two digits, a slash or
dash separator, one or two digits, a separator, then two to four digits
matched greedily (up to four are taken). -/
def matchDate (l : List Char) : Option (List Char × List Char) :=
  let d1 := l.takeWhile Char.isDigit
  let r1 := l.dropWhile Char.isDigit
  if d1.isEmpty || 2 < d1.length then none
  else
    match r1 with
    | s1 :: r2 =>
      if s1 == '/' || s1 == '-' then
        let d2 := r2.takeWhile Char.isDigit
        let r3 := r2.dropWhile Char.isDigit
        if d2.isEmpty || 2 < d2.length then none
        else
          match r3 with
          | s2 :: r4 =>
            if s2 == '/' || s2 == '-' then
              let d3 := r4.takeWhile Char.isDigit
              if d3.length < 2 then none
              else some (d1 ++ s1 :: d2 ++ s2 :: d3.take 4, r4.drop (d3.take 4).length)
            else none
          | [] => none
      else none
    | [] => none

/-- The policy-reference pattern `[A-Z]{2,}\d{6,}` matched at the start of
`l`. -/
def matchPolicyRef (l : List Char) : Option (List Char × List Char) :=
  let us := l.takeWhile Char.isUpper
  let r1 := l.dropWhile Char.isUpper
  if us.length < 2 then none
  else
    let ds := r1.takeWhile Char.isDigit
    let r2 := r1.dropWhile Char.isDigit
    if ds.length < 6 then none else some (us ++ ds, r2)

/-- `re.findall` driver: scan left to right, emitting each match and
resuming after it, otherwise advancing one character. The fuel starts at the
text length, which bounds the number of steps because every matcher above
consumes at least one character. -/
def findAllAux (m : List Char → Option (List Char × List Char)) :
    Nat → List Char → List (List Char)
  | 0, _ => []
  | _, [] => []
  | fuel + 1, c :: cs =>
    match m (c :: cs) with
    | some (mt, rest) => mt :: findAllAux m fuel rest
    | none => findAllAux m fuel cs

/-- `re.findall(pattern, s)` for one of the matchers above. -/
def findAll (m : List Char → Option (List Char × List Char)) (s : String) : List (List Char) :=
  findAllAux m s.data.length s.data

/-- The dict returned by `InsuranceEmbedder._extract_features`
(lines 334-364). -/
structure FeatureSet where
  term_counts : List (String × Nat)
  amounts : List String
  percentages : List String
  dates : List String
  policy_references : List String
  word_count : Nat
  sentence_count : Nat
  avg_sentence_length : ℚ
  has_table_data : Bool
  has_legal_terms : Bool
deriving DecidableEq

/-- `InsuranceEmbedder._extract_features` (lines 334-364): term occurrence
counts over the lower-cased text, the four regex extractions, whitespace
word count, dot-split sentence count, average sentence length (0 when the
sentence list is empty, as in the source conditional), and the two boolean
signals. -/
def extract_features (terms : List String) (text : String) : FeatureSet :=
  { term_counts := terms.map (fun t => (t, countOccs (toLowerStr text) t))
    amounts := (findAll matchAmount text).map (fun l => String.mk l)
    percentages := (findAll matchPercent text).map (fun l => String.mk l)
    dates := (findAll matchDate text).map (fun l => String.mk l)
    policy_references := (findAll matchPolicyRef text).map (fun l => String.mk l)
    word_count := wordCount text
    sentence_count := (splitDot text.data).length
    avg_sentence_length :=
      if (splitDot text.data).isEmpty then 0
      else (wordCount text : ℚ) / ((splitDot text.data).length : ℚ)
    has_table_data := text.data.any Char.isDigit
    has_legal_terms := anyKw (toLowerStr text) legal_terms4 }

/-- `sum(1 for term in terms if term in text_lower)`: the number of
vocabulary terms present in the lower-cased text. -/
def termPresent (terms : List String) (text_lower : String) : Nat :=
  (terms.filter (fun t => strContains text_lower t)).length

/-- `sum(1 for word in [...] if word in text_lower)` over the five legal
words: the number of distinct legal words present. -/
def legalPresent (text_lower : String) : Nat :=
  (legal_words5.filter (fun w => strContains text_lower w)).length

/-- `InsuranceEmbedder._calculate_semantic_score` (lines 366-382):
(term presence count + legal-word presence count + 0.1 times the digit-run
count) divided by max(word count, 1), clamped to at most 1. -/
def calculate_semantic_score (terms : List String) (text : String) : ℚ :=
  min (((termPresent terms (toLowerStr text) : ℚ) + (legalPresent (toLowerStr text) : ℚ) +
      (countDigitRuns text : ℚ) * (1 / 10)) / ((max (wordCount text) 1 : Nat) : ℚ)) 1

/-- Total number of occurrences of the five legal words — the quantity the
claim calls `legal_boost` ("the number of occurrences of the words shall,
must, required, obligation, liability"). -/
def legalOccurrenceCount (text_lower : String) : Nat :=
  (legal_words5.map (fun w => countOccs text_lower w)).sum

/-- The semantic-score formula exactly as the claim words it, with
`legal_boost` counting occurrences rather than distinct present words. -/
def semantic_score_per_claim (terms : List String) (text : String) : ℚ :=
  min (((termPresent terms (toLowerStr text) : ℚ) + (legalOccurrenceCount (toLowerStr text) : ℚ) +
      (countDigitRuns text : ℚ) * (1 / 10)) / ((max (wordCount text) 1 : Nat) : ℚ)) 1

/-- The amended semantic-score formula: as the claim, except that
`legal_boost` is the number of distinct legal words present. -/
def semantic_score_amended (terms : List String) (text : String) : ℚ :=
  min (((termPresent terms (toLowerStr text) : ℚ) + (legalPresent (toLowerStr text) : ℚ) +
      (countDigitRuns text : ℚ) * (1 / 10)) / ((max (wordCount text) 1 : Nat) : ℚ)) 1

/-- The state stored by `InsurancePolicyChunker.__init__` (lines 63-85) =
`SimpleInsuranceChunker.__init__` (lines 52-62): the two size parameters and
the fixed keyword list (the two LangChain splitter objects built by the full
variant are external helpers configured with the same numbers). -/
structure InsurancePolicyChunker where
  chunk_size : Int
  chunk_overlap : Int
  section_keywords : List String
deriving DecidableEq

/-- The `section_keywords` list assigned by both constructors. -/
def section_keywords_def : List String :=
  ["policy", "coverage", "exclusions", "terms", "conditions",
   "premium", "deductible", "claim", "benefits", "limitations",
   "definitions", "general conditions", "special conditions",
   "schedule", "endorsement", "rider", "clause", "provision"]

/-- The constructor body: it only stores its arguments and the keyword list;
it contains no validation and no raise statement, so construction always
succeeds. A raising constructor would be `none`; this one never is. -/
def chunkerInit (chunk_size chunk_overlap : Int) : Option InsurancePolicyChunker :=
  some { chunk_size := chunk_size, chunk_overlap := chunk_overlap,
         section_keywords := section_keywords_def }

/-- One formatted retrieval result of `InsuranceRAGSystem.query`
(lines 483-490); the store's metadata mapping is modelled as key/value
pairs and its float distance as a rational. -/
structure RetrievalResult where
  content : String
  metadata : List (String × String)
  similarity_score : ℚ
  rank : Nat
deriving DecidableEq

/-- The parallel per-result lists of one query reply from the external
vector store: `results['documents'][0]`, `results['metadatas'][0]`,
`results['distances'][0]`. -/
structure QueryReply where
  documents : List String
  metadatas : List (List (String × String))
  distances : List ℚ
deriving DecidableEq

/-- The result-formatting loop of `InsuranceRAGSystem.query` (lines 482-492)
= `SimpleInsuranceRAGSystem.query` (lines 405-415): for each index below
`len(documents)`, content and metadata are copied, the distance is converted
to `1 - distance`, and the rank is `i + 1`. Indexing is modelled with `getD`,
which agrees with Python indexing when the three store lists have equal
length. -/
def formatResults (r : QueryReply) : List RetrievalResult :=
  (List.range r.documents.length).map (fun i =>
    { content := r.documents.getD i ""
      metadata := r.metadatas.getD i []
      similarity_score := 1 - r.distances.getD i 0
      rank := i + 1 })

/-- Python dict assignment `m[k] = v`: replace the entry when the key is
present, otherwise append it. -/
def dictSet {α : Type} (m : List (String × α)) (k : String) (v : α) : List (String × α) :=
  if m.any (fun p => p.1 == k) then
    m.map (fun p => if p.1 == k then (k, v) else p)
  else m ++ [(k, v)]

/-- Whether an `Except` computation succeeded. -/
def exceptOk {ε α : Type} : Except ε α → Bool
  | Except.ok _ => true
  | Except.error _ => false

/-- One iteration of the `for pdf_file in pdf_files` loop of `process_pdfs`
(insurance_rag_system.py 412-441): the whole extract/chunk/embed/store body
is the fallible `pipeline`; on success the registry entry for the file is
written, on an exception the error is logged and the registry is left
untouched. -/
def pdfStep {α : Type} (pipeline : String → Except String α)
    (reg : List (String × α)) (f : String) : List (String × α) :=
  match pipeline f with
  | Except.ok d => dictSet reg f d
  | Except.error _ => reg

/-- `InsuranceRAGSystem.process_pdfs` (lines 408-441) =
`SimpleInsuranceRAGSystem.process_pdfs` (lines 331-364): fold the guarded
per-document body over the file list, starting from the empty
`processed_docs` registry. -/
def process_pdfs {α : Type} (pipeline : String → Except String α) (files : List String) :
    List (String × α) :=
  files.foldl (pdfStep pipeline) []

/-- The fixture input of the feature-extraction round-trip test. -/
def fixture_text : String := "The premium is $1,200.50 due by 01/15/2024 (10% surcharge)."

/-- The all-empty default used when indexing formatted result lists. -/
def emptyResult : RetrievalResult :=
  { content := "", metadata := [], similarity_score := 0, rank := 0 }

/-- A concrete one-document store reply whose single distance is 2/10. -/
def replyFixture : QueryReply :=
  { documents := ["doc one"], metadatas := [[]], distances := [2 / 10] }

/-- The chunker state stored when construction is given the parameters
`cs` and `ov`. -/
def chunkerOf (cs ov : Int) : InsurancePolicyChunker :=
  { chunk_size := cs, chunk_overlap := ov, section_keywords := section_keywords_def }

/-- `splitDot` never returns the empty list, mirroring the fact that
Python `text.split('.')` always has at least one element. -/
theorem splitDot_ne_nil (l : List Char) : splitDot l ≠ [] := by
  cases l with
  | nil => simp [splitDot]
  | cons c cs =>
    simp only [splitDot]
    split
    · simp
    · split <;> simp

/-- C2 (confirmed): section classification is exactly the first-match
evaluation, on the lower-cased line, of the fixed ordered rule list
coverage, exclusion, definition, condition, premium, claim, schedule, with
`general` when no rule matches; overlapping keywords therefore resolve to
the earlier rule. -/
theorem classify_first_match : ∀ text, classify_section text = classify_spec text :=
  fun _ => rfl

/-- C3, counterexample: on the line of the claim the classifier does not
return `exclusion`, because the coverage rule is evaluated first and the
line contains the substring `coverage`. -/
theorem classify_mixed_counterexample :
    classify_section ("This is excluded from coverage.") ≠ ("exclusion") := by decide

/-- C3 (corrected): `classify("This is excluded from coverage.")` returns
`coverage`: the coverage rule precedes the exclusion rule in the cascade and
the line contains its keyword. -/
theorem classify_mixed_coverage :
    classify_section ("This is excluded from coverage.") = ("coverage") := by decide

/-- C5 (confirmed): on the fixture sentence, feature extraction returns
amounts `$1,200.50`, percentages `10%`, dates `01/15/2024`, and counts the
term `premium` exactly once. -/
theorem feature_fixture :
    (extract_features insurance_terms fixture_text).amounts = [("$1,200.50")] ∧
      (extract_features insurance_terms fixture_text).percentages = [("10%")] ∧
      (extract_features insurance_terms fixture_text).dates = [("01/15/2024")] ∧
      (extract_features insurance_terms fixture_text).term_counts.lookup ("premium") = some 1 := by
  refine ⟨?_, ?_, ?_, ?_⟩ <;> decide

/-- C6, counterexample: on the text `shall shall` the code's score is 1/2
(the word `shall` is counted once, being merely present), while the formula
of the claim, whose legal boost counts the two occurrences, yields 1. -/
theorem semantic_score_counterexample :
    calculate_semantic_score insurance_terms ("shall shall") ≠
      semantic_score_per_claim insurance_terms ("shall shall") := by
  have ht : termPresent insurance_terms (toLowerStr ("shall shall")) = 0 := by decide
  have hl : legalPresent (toLowerStr ("shall shall")) = 1 := by decide
  have ho : legalOccurrenceCount (toLowerStr ("shall shall")) = 2 := by decide
  have hd : countDigitRuns ("shall shall") = 0 := by decide
  have hw : wordCount ("shall shall") = 2 := by decide
  have hmax : ((max (wordCount ("shall shall")) 1 : Nat) : ℚ) = 2 := by
    rw [hw]
    norm_num
  have e1 : calculate_semantic_score insurance_terms ("shall shall") = 1 / 2 := by
    unfold calculate_semantic_score
    rw [ht, hl, hd, hmax, min_eq_left (by norm_num)]
    norm_num
  have e2 : semantic_score_per_claim insurance_terms ("shall shall") = 1 := by
    unfold semantic_score_per_claim
    rw [ht, ho, hd, hmax, min_eq_left (by norm_num)]
    norm_num
  rw [e1, e2]
  norm_num

/-- C6 (corrected): the semantic score equals the claimed clamped quotient
once `legal_boost` is read as the number of distinct legal words present
(not their total occurrences), and it always lies in the interval from 0 to
1. -/
theorem semantic_score_spec (terms : List String) (text : String) :
    calculate_semantic_score terms text = semantic_score_amended terms text ∧
      0 ≤ calculate_semantic_score terms text ∧ calculate_semantic_score terms text ≤ 1 := by
  refine ⟨rfl, ?_, ?_⟩
  · unfold calculate_semantic_score
    refine le_min ?_ (by norm_num)
    apply div_nonneg
    · positivity
    · positivity
  · unfold calculate_semantic_score
    exact min_le_right _ _

/-- C7, counterexample: the chunker constructor accepts chunk sizes 0 and
(-7) and simply stores them; no configuration error is raised at
construction time. -/
theorem chunker_accepts_nonpositive :
    chunkerInit 0 50 = some (chunkerOf 0 50) ∧
      chunkerInit (-7) 50 = some (chunkerOf (-7) 50) := ⟨rfl, rfl⟩

/-- C7 (corrected): the constructor performs no validation at all — every
chunk size, positive or not, is accepted and stored unchanged, and the
resulting non-positive size is only felt later at chunking time. -/
theorem chunker_init_total (chunk_size chunk_overlap : Int) :
    chunkerInit chunk_size chunk_overlap = some (chunkerOf chunk_size chunk_overlap) := rfl

/-- C9 (confirmed): the sentence count computed by feature extraction is at
least 1, and the average sentence length it stores equals
word count / max(sentence count, 1); the division-by-zero guard is never
exercised. -/
theorem sentence_count_ge_one (terms : List String) (text : String) :
    1 ≤ (extract_features terms text).sentence_count ∧
      (extract_features terms text).avg_sentence_length =
        (wordCount text : ℚ) /
          ((max (extract_features terms text).sentence_count 1 : Nat) : ℚ) := by
  have hne := splitDot_ne_nil text.data
  have hlen : 1 ≤ (splitDot text.data).length :=
    Nat.succ_le_of_lt (List.length_pos.mpr hne)
  have hfalse : (splitDot text.data).isEmpty = false := by
    cases h : splitDot text.data with
    | nil => exact absurd h hne
    | cons a as => rfl
  have hmax : max (splitDot text.data).length 1 = (splitDot text.data).length :=
    Nat.max_eq_left hlen
  constructor
  · simpa [extract_features] using hlen
  · simp [extract_features, hfalse, hmax]

/-- C10 (confirmed): with chunk size 1, a single non-header line of two
words that the tokenizer reports as one sentence makes the builder emit a
text chunk whose content is the empty string, with word count 0 and
character count 0. -/
theorem empty_chunk_emitted :
    ∃ c ∈ create_semantic_chunks 1 (fun t => [t])
        [{ text := "alpha beta.", is_header := false, section_type := "general" }]
        ([] : List TableData),
      c.type = ("text") ∧ c.content = ("") ∧ c.meta = ChunkMeta.text ("general") 0 0 := by
  decide

/-- C4 (confirmed): for every store reply and every in-range index, the
formatted result at that index reports similarity 1 minus the store's
distance for that index and rank index + 1, and exactly one result is
produced per returned document. -/
theorem query_similarity_rank (r : QueryReply) (i : Nat) (hi : i < r.documents.length) :
    ((formatResults r).getD i emptyResult).similarity_score = 1 - r.distances.getD i 0 ∧
      ((formatResults r).getD i emptyResult).rank = i + 1 ∧
      (formatResults r).length = r.documents.length := by
  have hlt : i < (formatResults r).length := by simpa [formatResults] using hi
  rw [List.getD_eq_getElem _ _ hlt]
  refine ⟨?_, ?_, by simp [formatResults]⟩ <;> simp [formatResults]

/-- Witness for C4 at a concrete reply: a store distance of 2/10 yields
similarity 8/10 and the single result has rank 1. -/
theorem query_similarity_rank_witness :
    ((formatResults replyFixture).getD 0 emptyResult).similarity_score = 8 / 10 ∧
      ((formatResults replyFixture).getD 0 emptyResult).rank = 1 := by
  have h := query_similarity_rank replyFixture 0 (by decide)
  refine ⟨?_, h.2.1⟩
  rw [h.1]
  norm_num [replyFixture]

/-- Folding the guarded per-document step over a file list gives the same
registry as folding it over only the files whose pipeline body succeeds:
each failing file leaves the accumulator untouched. -/
theorem pdfFold_filter {α : Type} (pipeline : String → Except String α) (files : List String) :
    ∀ reg, files.foldl (pdfStep pipeline) reg =
      (files.filter (fun f => exceptOk (pipeline f))).foldl (pdfStep pipeline) reg := by
  induction files with
  | nil => intro reg; rfl
  | cons f fs ih =>
    intro reg
    cases hpf : pipeline f with
    | ok d =>
      have hp : exceptOk (pipeline f) = true := by rw [hpf]; rfl
      rw [List.foldl_cons, List.filter_cons, if_pos hp, List.foldl_cons]
      exact ih (pdfStep pipeline reg f)
    | error e =>
      have hp : exceptOk (pipeline f) = false := by rw [hpf]; rfl
      have hstep : pdfStep pipeline reg f = reg := by
        unfold pdfStep
        rw [hpf]
      rw [List.foldl_cons, hstep, List.filter_cons, if_neg (by simp [hp])]
      exact ih reg

/-- C8 (confirmed): a document whose extract/chunk/embed/store body fails is
simply skipped — the batch result is exactly the result of processing the
successful documents alone, so processing continues with every remaining
document and the registry entries of other documents are unaffected. -/
theorem process_isolation {α : Type} (pipeline : String → Except String α)
    (files : List String) :
    process_pdfs pipeline files =
      process_pdfs pipeline (files.filter (fun f => exceptOk (pipeline f))) := by
  unfold process_pdfs
  exact pdfFold_filter pipeline files []

/-- A buffer satisfying the buffer invariant yields a chunk satisfying the
size-bound property when flushed. -/
theorem goodBuf_chunk (cs : Nat) (sp : String → List String) (buf : List String) (sec : String)
    (h : GoodBuf cs sp buf) : GoodChunk cs sp (createChunkMetadata buf sec) := by
  intro _
  rcases h with h | ⟨s, t, rfl, hmem, hlt⟩
  · exact Or.inl (by simpa [createChunkMetadata] using h)
  · refine Or.inr ⟨by simpa [createChunkMetadata, joinSp] using hlt, t, ?_⟩
    simpa [createChunkMetadata, joinSp] using hmem

/-- The sentence re-packing loop emits only chunks satisfying the size-bound
property, and its final buffer satisfies the buffer invariant, whenever all
the sentences fed to it come from one tokenizer call. -/
theorem overflowSplit_inv (cs : Nat) (sp : String → List String) (sec t0 : String)
    (ss : List String) :
    ∀ temp, (∀ s ∈ ss, s ∈ sp t0) → GoodBuf cs sp temp →
      (∀ c ∈ (overflowSplit cs sec ss temp).1, GoodChunk cs sp c) ∧
        GoodBuf cs sp (overflowSplit cs sec ss temp).2 := by
  induction ss with
  | nil =>
    intro temp _ htemp
    exact ⟨by simp [overflowSplit], htemp⟩
  | cons s rest ih =>
    intro temp hss htemp
    have hs : s ∈ sp t0 := hss s (List.mem_cons_self s rest)
    have hrest : ∀ x ∈ rest, x ∈ sp t0 := fun x hx => hss x (List.mem_cons_of_mem s hx)
    by_cases h : wordCount (joinSp (temp ++ [s])) > cs
    · have hd : (temp ++ [s]).dropLast = temp := by simp
      have hsingle : GoodBuf cs sp [s] := by
        by_cases hle : wordCount s ≤ cs
        · exact Or.inl (by simpa [joinSp] using hle)
        · exact Or.inr ⟨s, t0, rfl, hs, Nat.lt_of_not_le hle⟩
      have ihres := ih [s] hrest hsingle
      have heq : overflowSplit cs sec (s :: rest) temp =
          (createChunkMetadata ((temp ++ [s]).dropLast) sec ::
              (overflowSplit cs sec rest [s]).1,
            (overflowSplit cs sec rest [s]).2) := by
        simp only [overflowSplit]
        rw [if_pos h]
      rw [heq]
      constructor
      · intro c hc
        rcases List.mem_cons.mp hc with hc | hc
        · rw [hc, hd]
          exact goodBuf_chunk cs sp temp sec htemp
        · exact ihres.1 c hc
      · exact ihres.2
    · have heq : overflowSplit cs sec (s :: rest) temp =
          overflowSplit cs sec rest (temp ++ [s]) := by
        simp only [overflowSplit]
        rw [if_neg h]
      rw [heq]
      exact ih (temp ++ [s]) hrest (Or.inl (Nat.le_of_not_lt h))

/-- The size check preserves the invariant: assuming only that the chunks
emitted so far are good, afterwards the chunks are good and the working
buffer satisfies the buffer invariant. -/
theorem sizeCheck_inv (cs : Nat) (sp : String → List String)
    (st : List Chunk × List String × String)
    (h1 : ∀ c ∈ st.1, GoodChunk cs sp c) :
    (∀ c ∈ (sizeCheck cs sp st).1, GoodChunk cs sp c) ∧
      GoodBuf cs sp (sizeCheck cs sp st).2.1 := by
  by_cases h : wordCount (joinSp st.2.1) > cs
  · have hz : GoodBuf cs sp ([] : List String) :=
      Or.inl (by have h0 : wordCount (joinSp []) = 0 := rfl; omega)
    have hov := overflowSplit_inv cs sp st.2.2 (joinSp st.2.1) (sp (joinSp st.2.1)) []
      (fun s hs => hs) hz
    have heq : sizeCheck cs sp st =
        (st.1 ++ (overflowSplit cs st.2.2 (sp (joinSp st.2.1)) []).1,
          (overflowSplit cs st.2.2 (sp (joinSp st.2.1)) []).2, st.2.2) := by
      simp only [sizeCheck]
      rw [if_pos h]
    rw [heq]
    constructor
    · intro c hc
      rcases List.mem_append.mp hc with hc | hc
      · exact h1 c hc
      · exact hov.1 c hc
    · exact hov.2
  · have heq : sizeCheck cs sp st = st := by
      simp only [sizeCheck]
      rw [if_neg h]
    rw [heq]
    exact ⟨h1, Or.inl (Nat.le_of_not_lt h)⟩

/-- The header step can only add the flushed old buffer as a chunk, which is
good whenever that buffer satisfied the buffer invariant. -/
theorem headerStep_chunks (cs : Nat) (sp : String → List String)
    (st : List Chunk × List String × String) (item : LineItem)
    (h1 : ∀ c ∈ st.1, GoodChunk cs sp c) (h2 : GoodBuf cs sp st.2.1) :
    ∀ c ∈ (headerStep st item).1, GoodChunk cs sp c := by
  intro c hc
  unfold headerStep at hc
  by_cases hb : (item.is_header && (item.section_type != st.2.2)) = true
  · rw [if_pos hb] at hc
    by_cases he : st.2.1.isEmpty = true
    · rw [if_pos he] at hc
      exact h1 c hc
    · rw [if_neg he] at hc
      rcases List.mem_append.mp hc with hc | hc
      · exact h1 c hc
      · rw [List.mem_singleton.mp hc]
        exact goodBuf_chunk cs sp st.2.1 st.2.2 h2
  · rw [if_neg hb] at hc
    exact h1 c hc

/-- One full loop iteration preserves the invariant. -/
theorem chunkStep_inv (cs : Nat) (sp : String → List String)
    (st : List Chunk × List String × String) (item : LineItem)
    (h1 : ∀ c ∈ st.1, GoodChunk cs sp c) (h2 : GoodBuf cs sp st.2.1) :
    (∀ c ∈ (chunkStep cs sp st item).1, GoodChunk cs sp c) ∧
      GoodBuf cs sp (chunkStep cs sp st item).2.1 :=
  sizeCheck_inv cs sp (headerStep st item) (headerStep_chunks cs sp st item h1 h2)

/-- The whole fold over the line stream preserves the invariant. -/
theorem chunkFold_inv (cs : Nat) (sp : String → List String) (items : List LineItem) :
    ∀ st : List Chunk × List String × String,
      (∀ c ∈ st.1, GoodChunk cs sp c) → GoodBuf cs sp st.2.1 →
      (∀ c ∈ (items.foldl (chunkStep cs sp) st).1, GoodChunk cs sp c) ∧
        GoodBuf cs sp (items.foldl (chunkStep cs sp) st).2.1 := by
  induction items with
  | nil =>
    intro st h1 h2
    exact ⟨h1, h2⟩
  | cons item rest ih =>
    intro st h1 h2
    rw [List.foldl_cons]
    have h := chunkStep_inv cs sp st item h1 h2
    exact ih (chunkStep cs sp st item) h.1 h.2

/-- C1 (confirmed): for every configured chunk size, sentence tokenizer,
line stream and table list, every text chunk produced by the chunk builder
has word count at most the chunk size, except that a chunk may consist of a
single tokenizer-produced sentence whose own word count exceeds it, kept
whole. -/
theorem chunk_word_bound (chunk_size : Nat) (splitSentences : String → List String)
    (items : List LineItem) (tables : List TableData) (c : Chunk)
    (hc : c ∈ create_semantic_chunks chunk_size splitSentences items tables)
    (ht : c.type = "text") :
    wordCount c.content ≤ chunk_size ∨
      (chunk_size < wordCount c.content ∧ ∃ t, c.content ∈ splitSentences t) := by
  have hz : GoodBuf chunk_size splitSentences ([] : List String) :=
    Or.inl (by have h0 : wordCount (joinSp []) = 0 := rfl; omega)
  have hfold := chunkFold_inv chunk_size splitSentences items ([], [], "general")
    (by intro x hx; exact absurd hx (List.not_mem_nil x)) hz
  unfold create_semantic_chunks at hc
  rcases List.mem_append.mp hc with hc | hc
  · unfold finishChunks at hc
    by_cases he : ((items.foldl (chunkStep chunk_size splitSentences)
        ([], [], "general")).2.1).isEmpty = true
    · rw [if_pos he] at hc
      exact hfold.1 c hc ht
    · rw [if_neg he] at hc
      rcases List.mem_append.mp hc with hc | hc
      · exact hfold.1 c hc ht
      · rw [List.mem_singleton.mp hc] at ht ⊢
        exact goodBuf_chunk chunk_size splitSentences _ _ hfold.2 ht
  · rcases List.mem_map.mp hc with ⟨t, _, rfl⟩
    exact absurd ht (by simp [tableChunk])

/-- Witness for C1 at a concrete run: a single two-word non-header line with
chunk size 3 produces a chunk within the bound. -/
theorem chunk_word_bound_witness :
    wordCount (createChunkMetadata ["alpha beta"] ("general")).content ≤ 3 ∨
      (3 < wordCount (createChunkMetadata ["alpha beta"] ("general")).content ∧
        ∃ t, (createChunkMetadata ["alpha beta"] ("general")).content ∈ [t]) :=
  chunk_word_bound 3 (fun t => [t])
    [{ text := "alpha beta", is_header := false, section_type := "general" }] []
    (createChunkMetadata ["alpha beta"] ("general")) (by decide) rfl
